import Mathlib

/-!
# Verification of the xrpl-tag-streamer classification and order-lifecycle engine

This development shallowly embeds the transaction-classification and
order-lifecycle code of the repository (`src/utils/transaction_processor.py`,
`src/collector.py`, `src/data_types.py`, `src/mongo_client.py`) and proves or
refutes the specification claims about it.

Modelling conventions, used throughout:

* Python decimal/float values attached to amounts and fees are modelled as
  exact rationals (`ℚ`).  The source compares and subtracts them with IEEE-754
  doubles; every comparison exercised below is exact at the inputs used, so
  the rational model is faithful there.  The one claim that is genuinely about
  the *string* rendering of a float (the drops conversion) gets a dedicated
  string-level model.
* Python `dict.get` lookups of possibly missing keys are modelled with
  `Option`; raised exceptions are modelled with `Except PyError`.
* `xrpl.utils.get_balance_changes` is an external library function (the spec
  lists the RPC client library as an external collaborator).  Its output for
  the transaction's metadata is carried on the embedded metadata as
  `balanceChangesResult : Option (List BalanceChange)`; `none` models the
  library raising, which the source catches (`try/except` fallbacks).
-/

namespace XRPLTag

/-- Exceptions of the embedded Python fragments. -/
inductive PyError where
  /-- pydantic `ValidationError` (a required model field was not supplied). -/
  | validationError
  /-- The `KeyError` (subscripting a dict with a missing key). -/
  | keyError
  /-- The `AttributeError` (attribute access on `None`). -/
  | attributeError
  deriving DecidableEq, Repr

/-- The `OrderStatus` enum from `src/data_types.py`. -/
inductive OrderStatus where
  | open
  | filled
  | partiallyFilled
  | canceled
  deriving DecidableEq, Repr

/-- The `XRPLAmount` pydantic model from `src/data_types.py`, numeric layer:
the decimal string `value` is modelled as an exact rational. -/
structure XRPLAmount where
  currency : String
  issuer : Option String
  value : ℚ
  deriving DecidableEq, Repr

/-- A wire-level XRPL amount: either a string of drops (modelled by the
integer the source obtains with `int(amount)`) or a
`{currency, issuer?, value}` record. -/
inductive XRPLWire where
  | drops (amount : ℤ)
  | obj (currency : String) (issuer : Option String) (value : ℚ)
  deriving DecidableEq, Repr

/-- The `XRPLAmount.from_xrpl_amount` (`src/data_types.py:41-56`), numeric layer:
a drops string is divided by 10^6, a record is taken apart field by field
(`currency` defaulting to `""`, `value` defaulting to `0` are irrelevant here
because the wire object always carries them). -/
def XRPLAmount.from_xrpl_amount : XRPLWire → XRPLAmount
  | .drops n => ⟨"XRP", none, (n : ℚ) / 1000000⟩
  | .obj c i v => ⟨c, i, v⟩

/-- The `model_dump` of an `XRPLAmount` back to a wire record, as stored in
MongoDB documents. -/
def XRPLAmount.dump (a : XRPLAmount) : XRPLWire :=
  .obj a.currency a.issuer a.value

@[simp]
theorem XRPLAmount.from_xrpl_amount_dump (a : XRPLAmount) :
    XRPLAmount.from_xrpl_amount a.dump = a := rfl

/-! ## String-level model of the drops conversion

`XRPLAmount.from_xrpl_amount` on a drops string computes
`str(int(amount) / 1000000)`: Python true division produces an IEEE-754
double and `str` renders it.  When `int(amount)` is a multiple of 10^6 whose
quotient has magnitude below 2^53, the true quotient is an integer that is
exactly representable, so the division is exact and `repr` renders it as the
integer digits followed by `".0"` (integral doubles below 10^16 are printed
without an exponent, and 2^53 < 10^16). -/

/-- Python `str` of an exactly integral double `n.0` with `|n| < 2^53`. -/
def pyFloatReprIntegral (n : ℤ) : String := toString n ++ ".0"

/-- Placeholder for Python's shortest-round-trip rendering of a
*non-integral or huge* float quotient.  That rendering depends on IEEE-754
rounding; no theorem below depends on this branch. -/
def pyFloatReprInexact (_a : ℤ) : String := "?float?"

/-- The `str(int(amount) / 1000000)` from `XRPLAmount.from_xrpl_amount`
(`src/data_types.py:48`): exact on integral quotients below 2^53. -/
def dropsValueString (a : ℤ) : String :=
  if a % 1000000 = 0 ∧ (a / 1000000).natAbs < 2 ^ 53 then
    pyFloatReprIntegral (a / 1000000)
  else
    pyFloatReprInexact a

/-- String-layer `XRPLAmount` mirroring the pydantic model exactly:
`value` is the stored string. -/
structure XRPLAmountStr where
  currency : String
  issuer : Option String
  value : String
  deriving DecidableEq, Repr

/-- String layer of `XRPLAmount.from_xrpl_amount` on a native drops string
(`src/data_types.py:44-49`): currency `"XRP"`, no issuer, value the rendered
quotient. -/
def fromDropsString (a : ℤ) : XRPLAmountStr :=
  ⟨"XRP", none, dropsValueString a⟩

/-- The `calculate_amount_difference`
(`src/utils/transaction_processor.py:367-396`).  Two drops strings:
`str(abs(int(current) - int(previous)) / 1000000)`, numerically
`|current - previous| / 10^6` tagged XRP.  Two records: the difference of the
`value` fields, under the *current* record's currency and issuer.  Mixed
kinds: the function does not raise; it returns the sentinel amount
`{currency: "UNKNOWN", value: "0"}`. -/
def calculate_amount_difference : XRPLWire → XRPLWire → XRPLAmount
  | .drops p, .drops c => ⟨"XRP", none, |(c : ℚ) - (p : ℚ)| / 1000000⟩
  | .obj _ _ pv, .obj cc ci cv => ⟨cc, ci, |cv - pv|⟩
  | _, _ => ⟨"UNKNOWN", none, 0⟩

/-! ## Transaction and metadata model -/

/-- One signed per-currency balance delta inside a `BalanceChange`
(output format of `xrpl.utils.get_balance_changes`). -/
structure BalanceEntry where
  currency : String
  issuer : Option String
  value : ℚ
  deriving DecidableEq, Repr

/-- One element of the list returned by `xrpl.utils.get_balance_changes`:
`{"account": ..., "balances": [...]}`. -/
structure BalanceChange where
  account : String
  balances : List BalanceEntry
  deriving DecidableEq, Repr

/-- The fields of a node diff that the source reads out of `NewFields`,
`FinalFields` or `PreviousFields`; each is a `dict.get`/subscript, hence
optional. -/
structure NodeFields where
  account : Option String := none
  sequence : Option ℕ := none
  takerGets : Option XRPLWire := none
  takerPays : Option XRPLWire := none
  deriving DecidableEq, Repr

/-- One entry of `meta.AffectedNodes`: a dict with a single key
`CreatedNode`, `ModifiedNode` or `DeletedNode`, carrying `LedgerEntryType`
and the field bags the source inspects. -/
inductive AffectedNode where
  | created (ledgerEntryType : String) (newFields : NodeFields)
  | modified (ledgerEntryType : String) (finalFields previousFields : NodeFields)
      (previousTxnID : Option String)
  | deleted (ledgerEntryType : String) (finalFields previousFields : NodeFields)
      (previousTxnID : Option String)
  deriving DecidableEq, Repr

/-- Parsed transaction metadata.  `balanceChangesResult` is the outcome of
the external `xrpl.utils.get_balance_changes(meta)` call for this metadata
(`none` models the library raising, which every caller catches). -/
structure Meta where
  transactionResult : String
  affectedNodes : List AffectedNode
  balanceChangesResult : Option (List BalanceChange)
  deriving DecidableEq, Repr

/-- The `meta`/`metaData` entry of a transaction: absent (the source
substitutes `{}`), an unexpanded string placeholder, or a parsed dict. -/
inductive MetaField where
  | absent
  | strMeta (s : String)
  | parsed (m : Meta)
  deriving DecidableEq, Repr

/-- The `tx_json` payload fields the embedded code reads.  Each field is a
`dict.get`, hence optional; `fee` is the drops integer parsed from the `Fee`
string. -/
structure TxJson where
  transactionType : Option String := none
  account : Option String := none
  destination : Option String := none
  fee : Option ℤ := none
  sequence : Option ℕ := none
  offerSequence : Option ℕ := none
  date : Option ℤ := none
  takerGets : Option XRPLWire := none
  takerPays : Option XRPLWire := none
  sourceTag : Option ℤ := none
  deriving DecidableEq, Repr

/-- A raw transaction as returned by `account_tx` and consumed by the
processing pipeline. -/
structure Tx where
  hash : Option String := none
  ledger_index : Option ℕ := none
  txJson : TxJson := {}
  meta : MetaField := .absent
  deriving DecidableEq, Repr

/-- The `xrpl.utils.ripple_time_to_datetime`, modelled as the shift from
ledger-epoch seconds (2000-01-01) to Unix-epoch seconds. -/
def ripple_time_to_datetime (t : ℤ) : ℤ := t + 946684800

/-- The `get_transaction_fee` (`src/utils/transaction_processor.py:16-26`):
`float(drops_to_xrp(tx_json.get("Fee", "0")))`, i.e. the fee drops divided by
10^6. -/
def get_transaction_fee (tx : Tx) : ℚ :=
  ((tx.txJson.fee.getD 0 : ℤ) : ℚ) / 1000000

/-- Python membership `x in wallets` where `x` may be `None`
(`None in [str...]` is `False`). -/
def optMem (o : Option String) (l : List String) : Bool :=
  match o with
  | some a => a ∈ l
  | none => false

/-- The `is_deposit_or_withdrawal` (`src/utils/transaction_processor.py:47-70`). -/
def is_deposit_or_withdrawal (tx : Tx) (user_wallets : List String) : Option String :=
  if tx.txJson.transactionType ≠ some "Payment" then none
  else
    let account := tx.txJson.account
    let destination := tx.txJson.destination
    if optMem account user_wallets ∧ ¬ optMem destination user_wallets then some "withdrawal"
    else if ¬ optMem account user_wallets ∧ optMem destination user_wallets then some "deposit"
    else if optMem account user_wallets ∧ optMem destination user_wallets then
      some "internal_transfer"
    else none

/-- The fee-only test of `is_offer_filled`
(`src/utils/transaction_processor.py:112`): an XRP delta whose value plus
the fee has magnitude below 10^-6 is skipped as fee noise. -/
def isFeeOnlyChange (fee : ℚ) (ch : BalanceEntry) : Bool :=
  ch.currency = "XRP" ∧ |ch.value + fee| < 1 / 1000000

/-- Does the account (when present) have a balance change that is not
fee-only?  Mirrors the double loop at
`src/utils/transaction_processor.py:108-115` (`balance_change["account"] ==
account` is `False` when `Account` is missing, since `dict == None` is
`False`). -/
def hasNonFeeChange (bcs : List BalanceChange) (account : Option String) (fee : ℚ) : Bool :=
  bcs.any fun bc =>
    account = some bc.account ∧ bc.balances.any fun ch => ¬ isFeeOnlyChange fee ch

/-- Is there a `CreatedNode` with `LedgerEntryType = "Offer"`?  Mirrors
`src/utils/transaction_processor.py:118-124` — note the source never looks
at the created node's owner. -/
def hasCreatedOfferNode (nodes : List AffectedNode) : Bool :=
  nodes.any fun n =>
    match n with
    | .created t _ => t = "Offer"
    | _ => false

/-- Is there a `DeletedNode` or `ModifiedNode` with
`LedgerEntryType = "Offer"`?  Mirrors
`src/utils/transaction_processor.py:187-192`. -/
def hasTouchedOfferNode (nodes : List AffectedNode) : Bool :=
  nodes.any fun n =>
    match n with
    | .modified t _ _ _ => t = "Offer"
    | .deleted t _ _ _ => t = "Offer"
    | _ => false

/-- The `is_offer_filled` (`src/utils/transaction_processor.py:73-143`).
Payment of the structure of the source: non-`OfferCreate` → `False`; string
metadata → `False`; absent metadata → the `TransactionResult` lookup yields
`None ≠ "tesSUCCESS"` → `False`; failed result → `False`; otherwise any
non-fee balance change of the account returns `True`, else a created Offer
node returns `False`, else `True`.  When `get_balance_changes` raises
(`balanceChangesResult = none`) the `except` fallback returns
`not offer_created`. -/
def is_offer_filled (tx : Tx) : Bool :=
  if tx.txJson.transactionType ≠ some "OfferCreate" then false
  else
    match tx.meta with
    | .strMeta _ => false
    | .absent => false
    | .parsed m =>
      if m.transactionResult ≠ "tesSUCCESS" then false
      else
        let fee := get_transaction_fee tx
        match m.balanceChangesResult with
        | some bcs =>
          if hasNonFeeChange bcs tx.txJson.account fee then true
          else if hasCreatedOfferNode m.affectedNodes then false
          else true
        | none => ¬ hasCreatedOfferNode m.affectedNodes

/-- Python `==` between a string (or `None`) and a dict record: always
`False`.  This is the elementwise test of `account in balance_changes` at
`src/utils/transaction_processor.py:176`, where `balance_changes` is the
*list* of per-account records returned by `get_balance_changes`. -/
def pyEqStrRecord (_account : Option String) (_bc : BalanceChange) : Bool := false

/-- The `is_market_trade` (`src/utils/transaction_processor.py:146-204`).
The membership test `account in balance_changes` compares the account
string against each per-account *record* of the list, so it is always
`False` and the multi-currency branch (lines 177-184) never executes (were
it entered, `balance_changes[account]` would raise `TypeError`).  Both the
`try` body and the `except` fallback then reduce to the affected-offer-node
check. -/
def is_market_trade (tx : Tx) : Bool :=
  if tx.txJson.transactionType ≠ some "Payment" then false
  else
    match tx.meta with
    | .strMeta _ => false
    | .absent => false
    | .parsed m =>
      if m.transactionResult ≠ "tesSUCCESS" then false
      else
        match m.balanceChangesResult with
        | some bcs =>
          if bcs.any (pyEqStrRecord tx.txJson.account) then
            false
          else
            hasTouchedOfferNode m.affectedNodes
        | none => hasTouchedOfferNode m.affectedNodes

/-! ## Trade model and trade extraction -/

/-- The `Trade` pydantic model (`src/data_types.py:59-71`).  Required fields are
non-optional; optional model fields carry their defaults. -/
structure Trade where
  hash : String
  ledger_index : ℕ
  timestamp : ℤ
  taker_address : String
  maker_address : String
  sold_amount : XRPLAmount
  bought_amount : XRPLAmount
  related_offer_sequence : Option ℕ := none
  related_offer_hash : Option String := none
  user_id : Option String := none
  fee_xrp : ℚ := 0
  deriving DecidableEq, Repr

/-- The keyword arguments a call site passes to the `Trade` constructor.
pydantic v2 ignores unknown keywords (such as `tx_hash`) and rejects a
missing required field, so both the field names the model declares and the
stray `tx_hash` keyword used by `src/utils/transaction_processor.py` are
carried here. -/
structure TradeCtorKwargs where
  hash : Option String := none
  tx_hash : Option String := none
  ledger_index : Option ℕ := none
  timestamp : Option ℤ := none
  taker_address : Option String := none
  maker_address : Option String := none
  sold_amount : Option XRPLAmount := none
  bought_amount : Option XRPLAmount := none
  related_offer_sequence : Option ℕ := none
  related_offer_hash : Option String := none
  user_id : Option String := none
  fee_xrp : Option ℚ := none
  deriving DecidableEq, Repr

/-- pydantic validation of a `Trade` construction: every required model
field must be supplied (under its declared name), unknown keywords are
ignored, optional fields fall back to their defaults. -/
def Trade.validate (kw : TradeCtorKwargs) : Except PyError Trade :=
  match kw.hash, kw.ledger_index, kw.timestamp, kw.taker_address,
      kw.maker_address, kw.sold_amount, kw.bought_amount with
  | some h, some li, some ts, some ta, some ma, some sa, some ba =>
    .ok ⟨h, li, ts, ta, ma, sa, ba, kw.related_offer_sequence,
      kw.related_offer_hash, kw.user_id, kw.fee_xrp.getD 0⟩
  | _, _, _, _, _, _, _ => .error .validationError

/-- The last negative delta of a maker's balances, as an amount with the
magnitude of the change (`src/utils/transaction_processor.py:253-259`;
later entries overwrite earlier ones). -/
def lastNegativeAmount (l : List BalanceEntry) : Option XRPLAmount :=
  l.foldl
    (fun acc ch => if ch.value < 0 then some ⟨ch.currency, ch.issuer, |ch.value|⟩ else acc)
    none

/-- The last positive delta of a maker's balances
(`src/utils/transaction_processor.py:246-252`). -/
def lastPositiveAmount (l : List BalanceEntry) : Option XRPLAmount :=
  l.foldl
    (fun acc ch => if ch.value > 0 then some ⟨ch.currency, ch.issuer, ch.value⟩ else acc)
    none

/-- The first affected node that is a `DeletedNode` or `ModifiedNode` of
`LedgerEntryType = "Offer"` (`src/utils/transaction_processor.py:263-268`). -/
def firstOfferNode (nodes : List AffectedNode) : Option AffectedNode :=
  nodes.find? fun n =>
    match n with
    | .modified t _ _ _ => t = "Offer"
    | .deleted t _ _ _ => t = "Offer"
    | _ => false

/-- The `value["FinalFields"]["Sequence"]` of the first touched Offer node:
a subscript, so a missing `Sequence` raises `KeyError`
(`src/utils/transaction_processor.py:267`). -/
def relatedOfferSequence (nodes : List AffectedNode) : Except PyError (Option ℕ) :=
  match firstOfferNode nodes with
  | none => .ok none
  | some (.modified _ ff _ _) =>
    match ff.sequence with
    | some s => .ok (some s)
    | none => .error .keyError
  | some (.deleted _ ff _ _) =>
    match ff.sequence with
    | some s => .ok (some s)
    | none => .error .keyError
  | some (.created _ _) => .ok none

/-- The maker loop of `extract_trades_from_metadata`
(`src/utils/transaction_processor.py:234-282`): skip the taker's own record,
take the last negative and last positive deltas, look up the related offer
sequence, and on the first maker exhibiting both sides construct a single
`Trade` and `break`.  The construction passes the transaction hash under
the keyword `tx_hash`, so `Trade.validate` rejects it. -/
def tryMakers (tx : Tx) (nodes : List AffectedNode) :
    List BalanceChange → Except PyError (List Trade)
  | [] => .ok []
  | bc :: rest =>
    if tx.txJson.account = some bc.account then tryMakers tx nodes rest
    else
      let maker_sold := lastNegativeAmount bc.balances
      let maker_bought := lastPositiveAmount bc.balances
      match relatedOfferSequence nodes with
      | .error e => .error e
      | .ok relSeq =>
        match maker_sold, maker_bought with
        | some s, some b => do
          let t ← Trade.validate
            { tx_hash := tx.hash
              ledger_index := tx.ledger_index
              timestamp := some (ripple_time_to_datetime (tx.txJson.date.getD 0))
              taker_address := tx.txJson.account
              maker_address := some bc.account
              sold_amount := some s
              bought_amount := some b
              related_offer_sequence := relSeq }
          pure [t]
        | _, _ => tryMakers tx nodes rest

/-- The per-node body of `_extract_trades_from_affected_nodes`
(`src/utils/transaction_processor.py:313-362`): for a deleted Offer node the
consumed slice comes from `FinalFields`, for a modified one from
`calculate_amount_difference` of `PreviousFields` and `FinalFields`; when a
maker address and both amounts are present a `Trade` is constructed — again
under the stray `tx_hash` keyword. -/
def fallbackNodeTrade (tx : Tx) (node : AffectedNode) : Except PyError (Option Trade) := do
  let mk : Option String → Option XRPLAmount → Option XRPLAmount →
      Except PyError (Option Trade) := fun maker sold bought =>
    match maker, sold, bought with
    | some m, some s, some b =>
      if m = "" then pure none
      else do
        let t ← Trade.validate
          { tx_hash := tx.hash
            ledger_index := tx.ledger_index
            timestamp := some (ripple_time_to_datetime (tx.txJson.date.getD 0))
            taker_address := tx.txJson.account
            maker_address := some m
            sold_amount := some s
            bought_amount := some b }
        pure (some t)
    | _, _, _ => pure none
  match node with
  | .deleted t ff _ _ =>
    if t = "Offer" then
      match ff.takerGets, ff.takerPays with
      | some g, some p =>
        mk ff.account (some (XRPLAmount.from_xrpl_amount g)) (some (XRPLAmount.from_xrpl_amount p))
      | _, _ => mk ff.account none none
    else pure none
  | .modified t ff pf _ =>
    if t = "Offer" then
      let sold :=
        match pf.takerGets, ff.takerGets with
        | some pg, some fg => some (calculate_amount_difference pg fg)
        | _, _ => none
      let bought :=
        match pf.takerPays, ff.takerPays with
        | some pp, some fp => some (calculate_amount_difference pp fp)
        | _, _ => none
      mk ff.account sold bought
    else pure none
  | .created _ _ => pure none

/-- The `_extract_trades_from_affected_nodes`
(`src/utils/transaction_processor.py:290-364`): one candidate trade per
touched Offer node; the `Trade` constructions raise out of this function
(it has no `try`). -/
def extract_trades_fallback (tx : Tx) : Except PyError (List Trade) :=
  match tx.meta with
  | .absent => .ok []
  | .strMeta _ => .ok []
  | .parsed m =>
    m.affectedNodes.foldlM
      (fun acc node => do
        match ← fallbackNodeTrade tx node with
        | some t => pure (acc ++ [t])
        | none => pure acc)
      []

/-- The `extract_trades_from_metadata`
(`src/utils/transaction_processor.py:207-287`): empty on absent or string
metadata; otherwise the balance-change path runs under a `try` whose
`except` falls back to `_extract_trades_from_affected_nodes`.  A raising
`get_balance_changes` is `balanceChangesResult = none`. -/
def extract_trades_from_metadata (tx : Tx) : Except PyError (List Trade) :=
  match tx.meta with
  | .absent => .ok []
  | .strMeta _ => .ok []
  | .parsed m =>
    let attempt : Except PyError (List Trade) :=
      match m.balanceChangesResult with
      | none => .error .keyError
      | some bcs => tryMakers tx m.affectedNodes bcs
    match attempt with
    | .ok l => .ok l
    | .error _ => extract_trades_fallback tx

/-! ## Transaction enrichment (`analyze_transaction`) -/

/-- The `extract_transaction_balance_changes`
(`src/utils/transaction_processor.py:414-433`): empty on absent or string
metadata, empty when `get_balance_changes` raises, its result otherwise. -/
def extract_transaction_balance_changes (tx : Tx) : List BalanceChange :=
  match tx.meta with
  | .absent => []
  | .strMeta _ => []
  | .parsed m => m.balanceChangesResult.getD []

/-- The enrichment keys `analyze_transaction` adds on top of the raw
transaction.  A key the function does not set is `none` (reading it with a
subscript then raises `KeyError`); `balance_changes` is only set when the
extracted list is nonempty, which the empty list also represents. -/
structure EnrichedTx where
  tx : Tx
  fee_xrp : ℚ
  tx_type : Option String
  balance_changes : List BalanceChange
  offer_filled : Option Bool := none
  trades : Option (List Trade) := none
  transaction_nature : Option String := none
  canceled_offer_sequence : Option ℕ := none
  deriving DecidableEq, Repr

/-- The `if offer_sequence:` — Python truthiness drops both a missing and a
zero `OfferSequence`. -/
def truthyOfferSequence (o : Option ℕ) : Option ℕ :=
  match o with
  | some s => if s = 0 then none else some s
  | none => none

/-- The `analyze_transaction` (`src/utils/transaction_processor.py:436-483`).
The call to `extract_trades_from_metadata` can raise (a pydantic
`ValidationError` escapes the extractor's `try`), which propagates out of
`analyze_transaction`; hence the `Except` result. -/
def analyze_transaction (tx : Tx) (user_wallets : List String) :
    Except PyError EnrichedTx := do
  let tx_type := tx.txJson.transactionType
  let base : EnrichedTx :=
    { tx := tx
      fee_xrp := get_transaction_fee tx
      tx_type := tx_type
      balance_changes := extract_transaction_balance_changes tx }
  if tx_type = some "OfferCreate" then
    let filled := is_offer_filled tx
    let withTrades ←
      if filled then do
        let ts ← extract_trades_from_metadata tx
        pure { base with offer_filled := some filled, trades := some ts }
      else
        pure { base with offer_filled := some filled }
    pure { withTrades with
      canceled_offer_sequence := truthyOfferSequence tx.txJson.offerSequence }
  else if tx_type = some "Payment" then
    match is_deposit_or_withdrawal tx user_wallets with
    | some nature => pure { base with transaction_nature := some nature }
    | none =>
      if is_market_trade tx then do
        let ts ← extract_trades_from_metadata tx
        pure { base with transaction_nature := some "market_trade", trades := some ts }
      else
        pure base
  else if tx_type = some "OfferCancel" then
    pure { base with
      canceled_offer_sequence := truthyOfferSequence tx.txJson.offerSequence }
  else
    pure base

/-- The read `enriched_tx["transaction_nature"]` at the Payment dispatch of
`_process_transaction` (`src/collector.py:410`): a dict subscript, raising
`KeyError` when enrichment did not set the key. -/
def payment_nature_lookup (e : EnrichedTx) : Except PyError String :=
  match e.transaction_nature with
  | some n => .ok n
  | none => .error .keyError

/-! ## Persistent state (`src/mongo_client.py`) and collector transitions -/

/-- A MongoDB document of the `open_orders` collection: the `model_dump` of
an `OpenOrder` (`src/data_types.py:94-107`), possibly patched later by
`update_open_order` (which may set `filled_gets`/`filled_pays`, change
`status` and null `last_checked_ledger`). -/
structure StoredOpenOrder where
  hash : String
  account : String
  sequence : ℕ
  created_ledger_index : ℕ
  last_checked_ledger : Option ℕ
  taker_gets : XRPLAmount
  taker_pays : XRPLAmount
  filled_gets : Option XRPLAmount := none
  filled_pays : Option XRPLAmount := none
  status : OrderStatus
  user_id : String
  transaction_type : String := "OfferCreate"
  created_date : ℤ
  fee_xrp : ℚ
  /-- Accumulated trades patched in by the payment-partial-fill path
  (`src/collector.py:936-945`); absent on a fresh open order, conflated
  here with the empty list. -/
  trades : List Trade := []
  deriving DecidableEq, Repr

/-- A document of the `filled_orders` collection.  Documents are written both
as `FilledOrder.model_dump` (which has no `resolution_method` key — the
`FilledOrder` model does not declare that field) and as the raw dict built by
`_handle_filled_order` (which has `resolution_method` but no
`cancel_tx_hash`/`trades`/`fee_xrp` keys), so every field is optional here. -/
structure FilledRecord where
  hash : Option String := none
  account : Option String := none
  sequence : Option ℕ := none
  created_ledger_index : Option ℕ := none
  resolved_ledger_index : Option ℕ := none
  taker_gets : Option XRPLAmount := none
  taker_pays : Option XRPLAmount := none
  filled_gets : Option XRPLAmount := none
  filled_pays : Option XRPLAmount := none
  status : Option OrderStatus := none
  user_id : Option String := none
  transaction_type : Option String := none
  created_date : Option ℤ := none
  resolution_date : Option ℤ := none
  resolution_method : Option String := none
  cancel_tx_hash : Option String := none
  trades : Option (List Trade) := none
  fee_xrp : Option ℚ := none
  deriving DecidableEq, Repr

/-- A document of the `canceled_orders` collection: the `model_dump` of a
`CanceledOrder` (`src/data_types.py:347-364`). -/
structure CanceledRecord where
  hash : String
  account : String
  sequence : ℕ
  created_ledger_index : ℕ
  canceled_ledger_index : ℕ
  taker_gets : XRPLAmount
  taker_pays : XRPLAmount
  status : OrderStatus := .canceled
  user_id : String
  transaction_type : String := "OfferCreate"
  created_date : ℤ
  canceled_date : ℤ
  cancel_tx_hash : String
  create_fee_xrp : ℚ
  cancel_fee_xrp : ℚ
  fee_xrp : ℚ
  deriving DecidableEq, Repr

/-- The slice of the MongoDB database the offer-lifecycle code touches. -/
structure DBState where
  open_orders : List StoredOpenOrder
  filled_orders : List FilledRecord
  canceled_orders : List CanceledRecord
  deriving DecidableEq, Repr

/-- The `get_open_order_by_sequence` (`src/mongo_client.py:212-223`):
`find_one({"account": account, "sequence": sequence})`. -/
def DBState.get_open_order_by_sequence (db : DBState) (account : String) (sequence : ℕ) :
    Option StoredOpenOrder :=
  db.open_orders.find? fun o => o.account = account ∧ o.sequence = sequence

/-- The `delete_open_order` (`src/mongo_client.py:243-255`): `delete_one` by
hash; the collection has a unique index on `hash`, so removing every match
is the same document. -/
def DBState.delete_open_order (db : DBState) (h : String) : DBState :=
  { db with open_orders := db.open_orders.filter fun o => o.hash ≠ h }

/-- The `update_open_order(hash, {"last_checked_ledger": v})`
(`src/mongo_client.py:225-241`, the reconciler's patch): `$set` on the
matching document, no upsert. -/
def DBState.update_open_order_last_checked (db : DBState) (h : String) (v : Option ℕ) :
    DBState :=
  { db with
    open_orders := db.open_orders.map fun o =>
      if o.hash = h then { o with last_checked_ledger := v } else o }

/-- Mongo `$set` of one filled-order payload over an existing document:
keys present in the payload overwrite, absent keys keep the stored value.
(The model conflates a key explicitly dumped as `None` with an absent key;
no call sequence exercised below upserts one kind of payload over the
other.) -/
def FilledRecord.setOver (old new : FilledRecord) : FilledRecord where
  hash := new.hash <|> old.hash
  account := new.account <|> old.account
  sequence := new.sequence <|> old.sequence
  created_ledger_index := new.created_ledger_index <|> old.created_ledger_index
  resolved_ledger_index := new.resolved_ledger_index <|> old.resolved_ledger_index
  taker_gets := new.taker_gets <|> old.taker_gets
  taker_pays := new.taker_pays <|> old.taker_pays
  filled_gets := new.filled_gets <|> old.filled_gets
  filled_pays := new.filled_pays <|> old.filled_pays
  status := new.status <|> old.status
  user_id := new.user_id <|> old.user_id
  transaction_type := new.transaction_type <|> old.transaction_type
  created_date := new.created_date <|> old.created_date
  resolution_date := new.resolution_date <|> old.resolution_date
  resolution_method := new.resolution_method <|> old.resolution_method
  cancel_tx_hash := new.cancel_tx_hash <|> old.cancel_tx_hash
  trades := new.trades <|> old.trades
  fee_xrp := new.fee_xrp <|> old.fee_xrp

/-- The `store_filled_order` (`src/mongo_client.py:257-276`):
`update_one({"hash": ...}, {"$set": order}, upsert=True)` — overwrite the
document with the matching hash (unique index), insert otherwise. -/
def DBState.store_filled_order (db : DBState) (r : FilledRecord) : DBState :=
  if db.filled_orders.any (fun f => f.hash = r.hash) then
    { db with
      filled_orders := db.filled_orders.map fun f =>
        if f.hash = r.hash then f.setOver r else f }
  else
    { db with filled_orders := db.filled_orders ++ [r] }

/-- The `store_canceled_order` (`src/mongo_client.py:452-471`): upsert by hash;
every payload is a full `CanceledOrder` dump, so `$set` amounts to
replacement. -/
def DBState.store_canceled_order (db : DBState) (r : CanceledRecord) : DBState :=
  if db.canceled_orders.any (fun c => c.hash = r.hash) then
    { db with
      canceled_orders := db.canceled_orders.map fun c =>
        if c.hash = r.hash then r else c }
  else
    { db with canceled_orders := db.canceled_orders ++ [r] }

/-! ## Offer-cancel processing (`src/collector.py:699-797`) -/

/-- The `_process_canceled_order` (`src/collector.py:766-797`): build a
`CanceledOrder` from the open order and the cancel transaction, store it and
delete the open order.  `canceled_ledger_index` and `cancel_tx_hash` are
required model fields, so a cancel transaction lacking `ledger_index` or
`hash` makes the pydantic construction raise. -/
def process_canceled_order (db : DBState) (oo : StoredOpenOrder) (e : EnrichedTx)
    (user_id : String) (cancel_fee : ℚ) : Except PyError DBState :=
  match e.tx.ledger_index, e.tx.hash with
  | some cli, some ch =>
    let record : CanceledRecord :=
      { hash := oo.hash
        account := oo.account
        sequence := oo.sequence
        created_ledger_index := oo.created_ledger_index
        canceled_ledger_index := cli
        taker_gets := XRPLAmount.from_xrpl_amount oo.taker_gets.dump
        taker_pays := XRPLAmount.from_xrpl_amount oo.taker_pays.dump
        user_id := user_id
        created_date := oo.created_date
        canceled_date := ripple_time_to_datetime (e.tx.txJson.date.getD 0)
        cancel_tx_hash := ch
        create_fee_xrp := oo.fee_xrp
        cancel_fee_xrp := cancel_fee
        fee_xrp := oo.fee_xrp + cancel_fee }
    .ok ((db.store_canceled_order record).delete_open_order oo.hash)
  | _, _ => .error .validationError

/-- The `_process_partially_filled_order` (`src/collector.py:732-764`): build a
`FilledOrder` dump from the open order — keeping the accumulated
`filled_gets`/`filled_pays` but with `status=OrderStatus.PARTIALLY_FILLED`,
no `resolution_method` (the model has no such field) and the model's default
empty `trades` list — store it in the filled collection and delete the open
order.  `XRPLAmount.from_xrpl_amount(None)` raises when the open order has
no `filled_gets`/`filled_pays`; a missing cancel `ledger_index` fails model
validation. -/
def process_partially_filled_order (db : DBState) (oo : StoredOpenOrder) (e : EnrichedTx)
    (user_id : String) (cancel_fee : ℚ) : Except PyError DBState :=
  match oo.filled_gets, oo.filled_pays with
  | some fg, some fp =>
    match e.tx.ledger_index with
    | some rli =>
      let record : FilledRecord :=
        { hash := some oo.hash
          account := some oo.account
          sequence := some oo.sequence
          created_ledger_index := some oo.created_ledger_index
          resolved_ledger_index := some rli
          taker_gets := some (XRPLAmount.from_xrpl_amount oo.taker_gets.dump)
          taker_pays := some (XRPLAmount.from_xrpl_amount oo.taker_pays.dump)
          filled_gets := some (XRPLAmount.from_xrpl_amount fg.dump)
          filled_pays := some (XRPLAmount.from_xrpl_amount fp.dump)
          status := some .partiallyFilled
          user_id := some user_id
          transaction_type := some "OfferCreate"
          created_date := some oo.created_date
          resolution_date := some (ripple_time_to_datetime (e.tx.txJson.date.getD 0))
          cancel_tx_hash := e.tx.hash
          trades := some []
          fee_xrp := some (oo.fee_xrp + cancel_fee) }
      .ok ((db.store_filled_order record).delete_open_order oo.hash)
    | none => .error .validationError
  | _, _ => .error .attributeError

/-- The `_process_offer_cancel` (`src/collector.py:699-730`).  The guard
`if not account or not offer_sequence` drops missing, empty and zero values
(Python truthiness); a lookup miss warns and returns with the store
untouched; a found order dispatches on `status == OPEN`. -/
def process_offer_cancel (db : DBState) (e : EnrichedTx) (user_id : String) :
    Except PyError DBState :=
  let cancel_fee := e.fee_xrp
  match e.tx.txJson.account, e.tx.txJson.offerSequence with
  | some a, some s =>
    if a = "" ∨ s = 0 then .ok db
    else
      match db.get_open_order_by_sequence a s with
      | none => .ok db
      | some oo =>
        if oo.status = .open then process_canceled_order db oo e user_id cancel_fee
        else process_partially_filled_order db oo e user_id cancel_fee
  | _, _ => .ok db

/-! ## Open-order reconciler (`src/collector.py:232-322`) -/

/-- The `_handle_filled_order` (`src/collector.py:290-322`): build the raw
inferred-fill dict (status `"filled"`, `resolution_method "inferred"`,
`filled_gets`/`filled_pays` copied from the original `taker_gets`/
`taker_pays`, `resolved_ledger_index` from `last_checked_ledger`), store it
in the filled collection and delete the open order.  `now` is the wall-clock
`datetime.now()` used for `resolution_date`. -/
def handle_filled_order (db : DBState) (now : ℤ) (o : StoredOpenOrder) : DBState :=
  let record : FilledRecord :=
    { hash := some o.hash
      account := some o.account
      sequence := some o.sequence
      created_ledger_index := some o.created_ledger_index
      resolved_ledger_index := o.last_checked_ledger
      taker_gets := some o.taker_gets
      taker_pays := some o.taker_pays
      filled_gets := some o.taker_gets
      filled_pays := some o.taker_pays
      status := some .filled
      user_id := some o.user_id
      transaction_type :=
        some (if o.transaction_type = "" then "OfferCreate" else o.transaction_type)
      created_date := some o.created_date
      resolution_date := some now
      resolution_method := some "inferred" }
  (db.store_filled_order record).delete_open_order o.hash

/-- One iteration of the per-order loop of `_check_open_orders`
(`src/collector.py:272-286`): an order whose sequence is missing from the
account's current offers is handled as an inferred fill, otherwise its
`last_checked_ledger` is patched to the query's `ledger_current_index`. -/
def reconcile_order (db : DBState) (now : ℤ) (o : StoredOpenOrder)
    (currentSeqs : List ℕ) (ledgerCurrentIndex : Option ℕ) : DBState :=
  if o.sequence ∈ currentSeqs then
    db.update_open_order_last_checked o.hash ledgerCurrentIndex
  else
    handle_filled_order db now o

/-- The `_check_open_orders` (`src/collector.py:232-288`): load the open orders
once, group them by (truthy) account, and for each account ask the ledger
for its current offers.  `offersOf` is the oracle for the `account_offers`
RPC: `none` models a failed request (the account is skipped), `some`
carries the current sequence numbers and the `ledger_current_index`. -/
def check_open_orders (db : DBState) (now : ℤ)
    (offersOf : String → Option (List ℕ × Option ℕ)) : DBState :=
  let orders := db.open_orders
  let accounts := ((orders.filter fun o => o.account ≠ "").map (·.account)).dedup
  accounts.foldl
    (fun s a =>
      match offersOf a with
      | none => s
      | some (seqs, idx) =>
        (orders.filter fun o => o.account = a).foldl
          (fun s2 o => reconcile_order s2 now o seqs idx) s)
    db

/-! ## Claim C7: the drops conversion -/

/-- Claim C7 counterexample: the claim's own example input.  Converting the
native wire amount `"1000000000"` yields `value = "1000.0"` — Python renders
`str(1000000000 / 1000000) = "1000.0"` — not the canonical zero-free string
`"1000"` the claim asserts. -/
theorem fromDropsString_example_not_canonical :
    fromDropsString 1000000000 = ⟨"XRP", none, "1000.0"⟩ ∧
      ("1000.0" : String) ≠ "1000" := by
  constructor
  · rfl
  · decide

/-- Claim C7, amended: for a drops count that is a multiple of 10^6 with
quotient magnitude below 2^53, the conversion yields currency `"XRP"`, no
issuer, and value the integer quotient rendered with a trailing `".0"`
(Python `str` of the float quotient), e.g. `"1000000000" ↦ "1000.0"`. -/
theorem fromDropsString_integral (a : ℤ) (h1 : a % 1000000 = 0)
    (h2 : (a / 1000000).natAbs < 2 ^ 53) :
    fromDropsString a = ⟨"XRP", none, toString (a / 1000000) ++ ".0"⟩ := by
  unfold fromDropsString dropsValueString pyFloatReprIntegral
  rw [if_pos ⟨h1, h2⟩]

/-- Witness for the amended claim C7 at the claim's example input. -/
theorem fromDropsString_integral_witness :
    fromDropsString 1000000000 =
      ⟨"XRP", none, toString ((1000000000 : ℤ) / 1000000) ++ ".0"⟩ :=
  fromDropsString_integral 1000000000 (by decide) (by decide)

/-! ## Claim C8: the amount-difference operation -/

/-- Claim C8 counterexample: on mixed units (a native drops string versus an
issued-token record) `calculate_amount_difference` does not fail with a
`MixedCurrency` error — it is total and returns the sentinel amount
`{currency: "UNKNOWN", value: "0"}`. -/
theorem calculate_amount_difference_mixed_no_error :
    calculate_amount_difference (.drops 100) (.obj "USD" (some "rIssuer") 5) =
      ⟨"UNKNOWN", none, 0⟩ := rfl

/-- Claim C8, amended: for same-unit pairs the operation returns
`|current − previous|` (drops pairs are scaled by 10^-6 and tagged XRP;
record pairs keep the *current* record's currency and issuer without
checking they match the previous one); for mixed native/record pairs it
returns the sentinel `UNKNOWN`/`0` amount instead of raising. -/
theorem calculate_amount_difference_spec :
    (∀ p c : ℤ,
      (calculate_amount_difference (.drops p) (.drops c)).currency = "XRP" ∧
      (calculate_amount_difference (.drops p) (.drops c)).value =
        |(c : ℚ) - (p : ℚ)| / 1000000) ∧
    (∀ pc pi pv cc ci cv,
      calculate_amount_difference (.obj pc pi pv) (.obj cc ci cv) =
        ⟨cc, ci, |cv - pv|⟩) ∧
    (∀ p cc ci cv,
      calculate_amount_difference (.drops p) (.obj cc ci cv) = ⟨"UNKNOWN", none, 0⟩) ∧
    (∀ pc pi pv c,
      calculate_amount_difference (.obj pc pi pv) (.drops c) = ⟨"UNKNOWN", none, 0⟩) := by
  refine ⟨fun p c => ⟨rfl, rfl⟩, fun pc pi pv cc ci cv => rfl,
    fun p cc ci cv => rfl, fun pc pi pv c => rfl⟩

/-! ## Claim C9: offer-cancel on an unknown offer -/

/-- Claim C9: an `OfferCancel` whose `(Account, OfferSequence)` pair has no
match in the open-order store is dropped with a warning and mutates nothing:
`_process_offer_cancel` returns with the persisted state identical. -/
theorem process_offer_cancel_not_found (db : DBState) (e : EnrichedTx)
    (u a : String) (s : ℕ)
    (ha : e.tx.txJson.account = some a)
    (hs : e.tx.txJson.offerSequence = some s)
    (hmiss : db.get_open_order_by_sequence a s = none) :
    process_offer_cancel db e u = .ok db := by
  unfold process_offer_cancel
  rw [ha, hs]
  by_cases hz : a = "" ∨ s = 0
  · simp [hz]
  · simp [hz, hmiss]

/-- Concrete cancel transaction for the claim C9 witness: `OfferCancel` by
account `"A"` of sequence `100` against an empty store. -/
def c9Cancel : EnrichedTx where
  tx :=
    { hash := some "HC9"
      ledger_index := some 9
      txJson :=
        { transactionType := some "OfferCancel"
          account := some "A"
          offerSequence := some 100
          fee := some 10
          date := some 0 }
      meta := .absent }
  fee_xrp := 1 / 100000
  tx_type := some "OfferCancel"
  balance_changes := []

/-- Witness for claim C9: the concrete cancel against the empty store is a
no-op. -/
theorem process_offer_cancel_not_found_witness :
    process_offer_cancel ⟨[], [], []⟩ c9Cancel "u" = .ok ⟨[], [], []⟩ :=
  process_offer_cancel_not_found ⟨[], [], []⟩ c9Cancel "u" "A" 100 rfl rfl rfl

/-! ## Claim C10: the `transaction_nature` KeyError is reachable -/

/-- The `TransactionResult` of a transaction's parsed metadata, when any. -/
def metaResult (tx : Tx) : Option String :=
  match tx.meta with
  | .parsed m => some m.transactionResult
  | _ => none

/-- A successful Payment between two non-user wallets that consumes no
offers: the enrichment sets no `transaction_nature` key. -/
def c10Tx : Tx where
  hash := some "HX"
  ledger_index := some 4
  txJson :=
    { transactionType := some "Payment"
      account := some "X"
      destination := some "Y"
      fee := some 10
      date := some 0 }
  meta := .parsed ⟨"tesSUCCESS", [], some []⟩

/-- Claim C10: at `c10Tx` (a successful Payment touching no user wallet and
not a market trade) enrichment leaves `transaction_nature` unset, so the
Payment dispatch of `_process_transaction` raises `KeyError` on reading
`enriched_tx["transaction_nature"]` — the branch is reachable. -/
theorem payment_nature_keyerror_reachable :
    metaResult c10Tx = some "tesSUCCESS" ∧
    c10Tx.txJson.transactionType = some "Payment" ∧
    optMem c10Tx.txJson.account ["W"] = false ∧
    optMem c10Tx.txJson.destination ["W"] = false ∧
    is_deposit_or_withdrawal c10Tx ["W"] = none ∧
    is_market_trade c10Tx = false ∧
    (analyze_transaction c10Tx ["W"]).bind payment_nature_lookup = .error .keyError := by
  refine ⟨rfl, rfl, by decide, by decide, by decide, by decide, ?_⟩
  rfl

/-! ## Claim C1: offer_filled / offer_open classification -/

/-- Predicate written from claim C1's words: a `CreatedNode` of type `Offer`
*owned by the transaction's account* exists in the metadata. -/
def claimC1_createdOfferOwnedByAccount (tx : Tx) : Bool :=
  match tx.meta with
  | .parsed m =>
    m.affectedNodes.any fun n =>
      match n with
      | .created t nf => t = "Offer" ∧ nf.account = tx.txJson.account ∧ nf.account ≠ none
      | _ => false
  | _ => false

/-- A successful `OfferCreate` by `"A"` with a fee-only balance picture
(no balance changes at all for `"A"`) whose metadata contains one created
Offer node owned by a *different* account `"B"`. -/
def c1Tx : Tx where
  hash := some "H1"
  ledger_index := some 5
  txJson :=
    { transactionType := some "OfferCreate"
      account := some "A"
      fee := some 10
      sequence := some 100
      date := some 0 }
  meta := .parsed ⟨"tesSUCCESS", [.created "Offer" ⟨some "B", some 7, none, none⟩], some []⟩

/-- Claim C1 counterexample: at `c1Tx` no created Offer node owned by the
account exists and the account has no non-fee balance change, so the claim
classifies the transaction offer_filled; the code returns `false`
(offer_open) because `is_offer_filled` never inspects the created node's
owner. -/
theorem is_offer_filled_ownership_counterexample :
    c1Tx.txJson.transactionType = some "OfferCreate" ∧
    metaResult c1Tx = some "tesSUCCESS" ∧
    claimC1_createdOfferOwnedByAccount c1Tx = false ∧
    hasNonFeeChange [] c1Tx.txJson.account (get_transaction_fee c1Tx) = false ∧
    is_offer_filled c1Tx = false := by
  refine ⟨rfl, rfl, by decide, by decide, by decide⟩

/-- Claim C1, amended: for a successful `OfferCreate` whose metadata parses
and whose balance changes are computed, the classifier decides offer_filled
exactly when the account has a non-fee-only balance change or no
`CreatedNode` of type `Offer` exists at all (regardless of its owner) — a
native delta `v` with `|v + fee| < 10^-6` counting as fee-only — and decides
offer_open exactly in the complementary case. -/
theorem is_offer_filled_spec (tx : Tx) (m : Meta) (bcs : List BalanceChange)
    (ht : tx.txJson.transactionType = some "OfferCreate")
    (hm : tx.meta = .parsed m)
    (hres : m.transactionResult = "tesSUCCESS")
    (hbc : m.balanceChangesResult = some bcs) :
    (is_offer_filled tx = true ↔
      hasNonFeeChange bcs tx.txJson.account (get_transaction_fee tx) = true ∨
        hasCreatedOfferNode m.affectedNodes = false) ∧
    (is_offer_filled tx = false ↔
      hasNonFeeChange bcs tx.txJson.account (get_transaction_fee tx) = false ∧
        hasCreatedOfferNode m.affectedNodes = true) := by
  cases hA : hasNonFeeChange bcs tx.txJson.account (get_transaction_fee tx) <;>
    cases hB : hasCreatedOfferNode m.affectedNodes <;>
      simp [is_offer_filled, ht, hm, hres, hbc, hA, hB]

/-- Witness for the amended claim C1 at the concrete input `c1Tx`. -/
theorem is_offer_filled_spec_witness :
    (is_offer_filled c1Tx = true ↔
      hasNonFeeChange [] c1Tx.txJson.account (get_transaction_fee c1Tx) = true ∨
        hasCreatedOfferNode [.created "Offer" ⟨some "B", some 7, none, none⟩] = false) ∧
    (is_offer_filled c1Tx = false ↔
      hasNonFeeChange [] c1Tx.txJson.account (get_transaction_fee c1Tx) = false ∧
        hasCreatedOfferNode [.created "Offer" ⟨some "B", some 7, none, none⟩] = true) :=
  is_offer_filled_spec c1Tx ⟨"tesSUCCESS", [.created "Offer" ⟨some "B", some 7, none, none⟩],
    some []⟩ [] rfl rfl rfl rfl

/-! ## Claim C5: market-trade classification of Payments -/

/-- Predicate written from claim C5's words: the sender has at least two
distinct currencies among its balance changes after discarding a fee-only
native delta. -/
def claimC5_senderMultiCurrency (tx : Tx) : Bool :=
  match tx.meta with
  | .parsed m =>
    match m.balanceChangesResult with
    | some bcs =>
      let fee := get_transaction_fee tx
      let senderEntries :=
        (bcs.filter fun bc => tx.txJson.account = some bc.account).flatMap (·.balances)
      let nonFee := senderEntries.filter fun ch => ¬ isFeeOnlyChange fee ch
      2 ≤ ((nonFee.map (·.currency)).dedup).length
    | none => false
  | _ => false

/-- A successful cross-currency Payment from `"X"` (not a user wallet) whose
sender balance changes span two currencies but whose metadata touches no
Offer node. -/
def c5Tx : Tx where
  hash := some "H5"
  ledger_index := some 6
  txJson :=
    { transactionType := some "Payment"
      account := some "X"
      destination := some "Y"
      fee := some 10
      date := some 0 }
  meta := .parsed
    ⟨"tesSUCCESS", [],
      some [⟨"X", [⟨"XRP", none, -10⟩, ⟨"USD", some "I", 5⟩]⟩]⟩

/-- Claim C5 counterexample: at `c5Tx` the sender has two distinct non-fee
currencies in its balance changes, so the claim requires market_trade; the
code returns `false` (and the classifier assigns no nature) because the
multi-currency branch of `is_market_trade` tests membership of the account
string in a *list of records* and never fires. -/
theorem is_market_trade_multicurrency_counterexample :
    c5Tx.txJson.transactionType = some "Payment" ∧
    metaResult c5Tx = some "tesSUCCESS" ∧
    is_deposit_or_withdrawal c5Tx ["W"] = none ∧
    claimC5_senderMultiCurrency c5Tx = true ∧
    is_market_trade c5Tx = false ∧
    (analyze_transaction c5Tx ["W"]).map (·.transaction_nature) = .ok none := by
  refine ⟨rfl, rfl, by decide, ?_, by decide, ?_⟩
  · norm_num [claimC5_senderMultiCurrency, c5Tx, isFeeOnlyChange, get_transaction_fee,
      List.filter, abs_lt]
    decide
  · rfl

/-- Claim C5, amended: for a successful Payment whose metadata parses, the
classifier decides market_trade exactly when some Offer node in the metadata
was modified or deleted; the multi-currency condition never contributes
(the membership test `account in balance_changes` compares the account
string against whole per-account records and is always false). -/
theorem is_market_trade_spec (tx : Tx) (m : Meta)
    (ht : tx.txJson.transactionType = some "Payment")
    (hm : tx.meta = .parsed m)
    (hres : m.transactionResult = "tesSUCCESS") :
    is_market_trade tx = hasTouchedOfferNode m.affectedNodes := by
  cases hb : m.balanceChangesResult <;>
    simp [is_market_trade, ht, hm, hres, hb, pyEqStrRecord]

/-- Witness for the amended claim C5 at the concrete input `c5Tx`. -/
theorem is_market_trade_spec_witness :
    is_market_trade c5Tx = hasTouchedOfferNode [] :=
  is_market_trade_spec c5Tx
    ⟨"tesSUCCESS", [], some [⟨"X", [⟨"XRP", none, -10⟩, ⟨"USD", some "I", 5⟩]⟩]⟩
    rfl rfl rfl

/-! ## Claim C6: trade extraction from metadata -/

/-- Set of maker accounts written from claim C6's words: accounts other than
the transaction's account with exactly one positive-delta currency and one
negative-delta currency among their balance changes, ignoring fee-only
native noise. -/
def claimC6_qualifyingMakers (tx : Tx) : List String :=
  match tx.meta with
  | .parsed m =>
    match m.balanceChangesResult with
    | some bcs =>
      let fee := get_transaction_fee tx
      (bcs.filter fun bc =>
        ¬ tx.txJson.account = some bc.account ∧
          (let entries := bc.balances.filter fun ch => ¬ isFeeOnlyChange fee ch
           ((entries.filter fun ch => 0 < ch.value).map (·.currency)).dedup.length = 1 ∧
           ((entries.filter fun ch => ch.value < 0).map (·.currency)).dedup.length = 1)).map
        (·.account)
    | none => []
  | _ => []

/-- A transaction whose metadata reports two maker accounts, each buying USD
and selling XRP, and touches no Offer node. -/
def c6Tx : Tx where
  hash := some "H6"
  ledger_index := some 3
  txJson :=
    { transactionType := some "Payment"
      account := some "T"
      fee := some 10
      date := some 0 }
  meta := .parsed
    ⟨"tesSUCCESS", [],
      some [⟨"M1", [⟨"USD", some "I", 5⟩, ⟨"XRP", none, -3⟩]⟩,
            ⟨"M2", [⟨"USD", some "I", 2⟩, ⟨"XRP", none, -1⟩]⟩]⟩

/-- Claim C6, evaluated at the failing input `c6Tx`: two maker accounts
qualify under the claim, yet the extractor emits nothing.  Constructing the
first maker's `Trade` fails pydantic validation — the call passes the
transaction hash under the stray keyword `tx_hash` while the model requires
`hash` — so the balance-change path raises, the `except` falls back to the
affected-nodes extractor, and with no Offer nodes that returns the empty
list. -/
theorem extract_trades_code_bug_eval :
    claimC6_qualifyingMakers c6Tx = ["M1", "M2"] ∧
    extract_trades_from_metadata c6Tx = .ok [] ∧
    Trade.validate
      { tx_hash := some "H6"
        ledger_index := some 3
        timestamp := some (ripple_time_to_datetime 0)
        taker_address := some "T"
        maker_address := some "M1"
        sold_amount := some ⟨"XRP", none, 3⟩
        bought_amount := some ⟨"USD", some "I", 5⟩ } = .error .validationError := by
  refine ⟨?_, rfl, rfl⟩
  norm_num [claimC6_qualifyingMakers, c6Tx, isFeeOnlyChange, get_transaction_fee,
    List.filter, abs_lt]
  decide

/-! ## Claim C2: explicit cancel of a partially filled offer -/

/-- A partially filled stored open order by `"A"`, sequence 100, with
accumulated fills 400 XRP / 200 USD and one accumulated trade. -/
def c2Open : StoredOpenOrder where
  hash := "HO"
  account := "A"
  sequence := 100
  created_ledger_index := 5
  last_checked_ledger := some 6
  taker_gets := ⟨"XRP", none, 1000⟩
  taker_pays := ⟨"USD", some "I", 500⟩
  filled_gets := some ⟨"XRP", none, 400⟩
  filled_pays := some ⟨"USD", some "I", 200⟩
  status := .partiallyFilled
  user_id := "u"
  created_date := 0
  fee_xrp := 1 / 100000
  trades := [⟨"HT", 5, 0, "T", "A", ⟨"XRP", none, 400⟩, ⟨"USD", some "I", 200⟩,
    some 100, none, none, 0⟩]

/-- The store holding just `c2Open`. -/
def c2Db : DBState := ⟨[c2Open], [], []⟩

/-- The enriched `OfferCancel` by `"A"` referencing sequence 100. -/
def c2Cancel : EnrichedTx where
  tx :=
    { hash := some "HC2"
      ledger_index := some 9
      txJson :=
        { transactionType := some "OfferCancel"
          account := some "A"
          offerSequence := some 100
          fee := some 10
          date := some 0 }
      meta := .absent }
  fee_xrp := 1 / 100000
  tx_type := some "OfferCancel"
  balance_changes := []

/-- Claim C2 counterexample: cancelling the partially filled `c2Open` stores
a filled-collection record whose `status` is still `PARTIALLY_FILLED` (not
`FILLED`), with no `resolution_method` key (the `FilledOrder` model has
none, so `direct` is never recorded) and an empty `trades` list instead of
the accumulated trade. -/
theorem process_offer_cancel_keeps_partial_status :
    (process_offer_cancel c2Db c2Cancel "u").map
        (fun db' =>
          (db'.filled_orders.map (·.status),
           db'.filled_orders.map (·.resolution_method),
           db'.filled_orders.map (·.trades),
           db'.open_orders.length)) =
      .ok ([some OrderStatus.partiallyFilled], [none], [some []], 0) ∧
    c2Open.trades ≠ [] := by
  exact ⟨rfl, by decide⟩

/-- Claim C2, amended: cancelling an offer found with status
`PARTIALLY_FILLED` moves it to the filled collection preserving the
accumulated `filled_gets`/`filled_pays` and setting `cancel_tx_hash`, and
removes it from the open store — but the stored record keeps status
`PARTIALLY_FILLED`, has no `resolution_method` field, and carries the
model's default empty `trades` list rather than the accumulated trades. -/
theorem process_offer_cancel_partially_filled (db : DBState) (e : EnrichedTx)
    (u a : String) (s : ℕ) (oo : StoredOpenOrder) (fg fp : XRPLAmount) (rli : ℕ)
    (ha : e.tx.txJson.account = some a) (ha' : a ≠ "")
    (hs : e.tx.txJson.offerSequence = some s) (hs' : s ≠ 0)
    (hfind : db.get_open_order_by_sequence a s = some oo)
    (hstat : oo.status = .partiallyFilled)
    (hfg : oo.filled_gets = some fg) (hfp : oo.filled_pays = some fp)
    (hrli : e.tx.ledger_index = some rli)
    (hfresh : ∀ f ∈ db.filled_orders, f.hash ≠ some oo.hash) :
    process_offer_cancel db e u = .ok
      { open_orders := db.open_orders.filter fun o => o.hash ≠ oo.hash
        filled_orders := db.filled_orders ++
          [{ hash := some oo.hash
             account := some oo.account
             sequence := some oo.sequence
             created_ledger_index := some oo.created_ledger_index
             resolved_ledger_index := some rli
             taker_gets := some oo.taker_gets
             taker_pays := some oo.taker_pays
             filled_gets := some fg
             filled_pays := some fp
             status := some .partiallyFilled
             user_id := some u
             transaction_type := some "OfferCreate"
             created_date := some oo.created_date
             resolution_date := some (ripple_time_to_datetime (e.tx.txJson.date.getD 0))
             resolution_method := none
             cancel_tx_hash := e.tx.hash
             trades := some []
             fee_xrp := some (oo.fee_xrp + e.fee_xrp) }]
        canceled_orders := db.canceled_orders } := by
  have hany : (db.filled_orders.any fun f => f.hash = some oo.hash) = false := by
    simp only [List.any_eq_false, decide_eq_true_eq]
    exact fun f hf => hfresh f hf
  have hne : ¬ (a = "" ∨ s = 0) := by
    rintro (h | h)
    · exact ha' h
    · exact hs' h
  unfold process_offer_cancel
  rw [ha, hs]
  dsimp only
  rw [if_neg hne, hfind]
  dsimp only
  rw [if_neg (by rw [hstat]; decide)]
  unfold process_partially_filled_order
  rw [hfg, hfp, hrli]
  dsimp only
  unfold DBState.store_filled_order DBState.delete_open_order
  dsimp only
  simp [hany]

/-- Witness for the amended claim C2 at `c2Db`/`c2Cancel`. -/
theorem process_offer_cancel_partially_filled_witness :
    process_offer_cancel c2Db c2Cancel "u" = .ok
      { open_orders := c2Db.open_orders.filter fun o => o.hash ≠ c2Open.hash
        filled_orders := c2Db.filled_orders ++
          [{ hash := some c2Open.hash
             account := some c2Open.account
             sequence := some c2Open.sequence
             created_ledger_index := some c2Open.created_ledger_index
             resolved_ledger_index := some 9
             taker_gets := some c2Open.taker_gets
             taker_pays := some c2Open.taker_pays
             filled_gets := some ⟨"XRP", none, 400⟩
             filled_pays := some ⟨"USD", some "I", 200⟩
             status := some .partiallyFilled
             user_id := some "u"
             transaction_type := some "OfferCreate"
             created_date := some c2Open.created_date
             resolution_date := some (ripple_time_to_datetime
               (c2Cancel.tx.txJson.date.getD 0))
             resolution_method := none
             cancel_tx_hash := c2Cancel.tx.hash
             trades := some []
             fee_xrp := some (c2Open.fee_xrp + c2Cancel.fee_xrp) }]
        canceled_orders := c2Db.canceled_orders } :=
  process_offer_cancel_partially_filled c2Db c2Cancel "u" "A" 100 c2Open
    ⟨"XRP", none, 400⟩ ⟨"USD", some "I", 200⟩ 9 rfl (by decide) rfl (by decide)
    rfl rfl rfl rfl rfl (by simp [c2Db])

/-! ## Claim C3: inferred fill of a vanished open offer -/

/-- Claim C3: an open offer whose sequence is absent from the account's
current offer list is stored as a filled record with status `FILLED`,
`resolution_method = "inferred"`, `filled_gets`/`filled_pays` equal to the
original `taker_gets`/`taker_pays`, `resolved_ledger_index` equal to the
offer's `last_checked_ledger`, and is deleted from the open store.  The
freshness hypothesis reflects the unique hash index (an open offer's hash is
not already a filled record's hash). -/
theorem reconciler_inferred_fill (db : DBState) (now : ℤ) (o : StoredOpenOrder)
    (seqs : List ℕ) (idx : Option ℕ)
    (habs : o.sequence ∉ seqs)
    (hfresh : ∀ f ∈ db.filled_orders, f.hash ≠ some o.hash) :
    (∃ r ∈ (reconcile_order db now o seqs idx).filled_orders,
      r.hash = some o.hash ∧ r.status = some OrderStatus.filled ∧
      r.resolution_method = some "inferred" ∧
      r.filled_gets = some o.taker_gets ∧ r.filled_pays = some o.taker_pays ∧
      r.resolved_ledger_index = o.last_checked_ledger) ∧
    ∀ o' ∈ (reconcile_order db now o seqs idx).open_orders, o'.hash ≠ o.hash := by
  have hany : (db.filled_orders.any fun f => f.hash = some o.hash) = false := by
    simp only [List.any_eq_false, decide_eq_true_eq]
    exact fun f hf => hfresh f hf
  unfold reconcile_order
  rw [if_neg habs]
  unfold handle_filled_order DBState.store_filled_order DBState.delete_open_order
  dsimp only
  rw [hany]
  constructor
  · refine ⟨_, List.mem_append_right _ (List.mem_singleton_self _),
      rfl, rfl, rfl, rfl, rfl, rfl⟩
  · intro o' ho'
    rw [List.mem_filter] at ho'
    simpa using ho'.2

/-- A stored open offer used as the claim C3 witness input. -/
def c3Open : StoredOpenOrder where
  hash := "H3"
  account := "A"
  sequence := 100
  created_ledger_index := 5
  last_checked_ledger := some 7
  taker_gets := ⟨"XRP", none, 1000⟩
  taker_pays := ⟨"USD", some "I", 500⟩
  status := .open
  user_id := "u"
  created_date := 0
  fee_xrp := 1 / 100000

/-- Witness for claim C3: `c3Open` against an empty current-offer list. -/
theorem reconciler_inferred_fill_witness :
    (∃ r ∈ (reconcile_order ⟨[c3Open], [], []⟩ 0 c3Open [] (some 9)).filled_orders,
      r.hash = some c3Open.hash ∧ r.status = some OrderStatus.filled ∧
      r.resolution_method = some "inferred" ∧
      r.filled_gets = some c3Open.taker_gets ∧ r.filled_pays = some c3Open.taker_pays ∧
      r.resolved_ledger_index = c3Open.last_checked_ledger) ∧
    ∀ o' ∈ (reconcile_order ⟨[c3Open], [], []⟩ 0 c3Open [] (some 9)).open_orders,
      o'.hash ≠ c3Open.hash :=
  reconciler_inferred_fill ⟨[c3Open], [], []⟩ 0 c3Open [] (some 9)
    (by simp) (by simp)

/-! ## Claim C4: reconciler terminal safety -/

/-- Map with a function that fixes every member is the identity. -/
theorem list_map_eq_self {α : Type} (l : List α) (f : α → α) (h : ∀ x ∈ l, f x = x) :
    l.map f = l := by
  induction l with
  | nil => rfl
  | cons a t ih =>
    simp only [List.map_cons, h a (List.mem_cons_self a t)]
    rw [ih fun x hx => h x (List.mem_cons_of_mem a hx)]

/-- The reconciler-safety invariant relative to the starting state `db₀`:
the canceled store is untouched and the filled store is the original one
plus appended records whose hashes come from `db₀`'s open offers. -/
def ReconInv (db₀ s : DBState) : Prop :=
  s.canceled_orders = db₀.canceled_orders ∧
  ∃ new, s.filled_orders = db₀.filled_orders ++ new ∧
    ∀ r ∈ new, ∃ o ∈ db₀.open_orders, r.hash = some o.hash

theorem ReconInv.refl (db₀ : DBState) : ReconInv db₀ db₀ :=
  ⟨rfl, [], by simp, by simp⟩

theorem ReconInv.store_filled (db₀ s : DBState) (rec : FilledRecord)
    (hdisj : ∀ o ∈ db₀.open_orders, ∀ f ∈ db₀.filled_orders, f.hash ≠ some o.hash)
    (hrec : ∃ o ∈ db₀.open_orders, rec.hash = some o.hash)
    (hInv : ReconInv db₀ s) : ReconInv db₀ (s.store_filled_order rec) := by
  obtain ⟨hc, new, hf, hnew⟩ := hInv
  obtain ⟨o, ho, hhash⟩ := hrec
  unfold DBState.store_filled_order
  by_cases h : (s.filled_orders.any fun f => f.hash = rec.hash) = true
  · rw [if_pos h]
    refine ⟨hc, new.map fun f => if f.hash = rec.hash then f.setOver rec else f, ?_, ?_⟩
    · have hold : (db₀.filled_orders.map fun f =>
          if f.hash = rec.hash then f.setOver rec else f) = db₀.filled_orders := by
        apply list_map_eq_self
        intro f hfmem
        rw [if_neg]
        rw [hhash]
        exact hdisj o ho f hfmem
      simp only [hf, List.map_append, hold]
    · intro r hr
      obtain ⟨x, hx, hxr⟩ := List.mem_map.mp hr
      by_cases hxh : x.hash = rec.hash
      · refine ⟨o, ho, ?_⟩
        rw [← hxr, if_pos hxh]
        show (x.setOver rec).hash = some o.hash
        unfold FilledRecord.setOver
        rw [hhash]
        rfl
      · rw [← hxr, if_neg hxh]
        exact hnew x hx
  · rw [if_neg h]
    refine ⟨hc, new ++ [rec], by rw [hf, List.append_assoc], ?_⟩
    intro r hr
    rcases List.mem_append.mp hr with hr1 | hr2
    · exact hnew r hr1
    · rw [List.mem_singleton.mp hr2]
      exact ⟨o, ho, hhash⟩

theorem ReconInv.reconcile (db₀ s : DBState) (now : ℤ) (o : StoredOpenOrder)
    (seqs : List ℕ) (idx : Option ℕ)
    (hdisj : ∀ o' ∈ db₀.open_orders, ∀ f ∈ db₀.filled_orders, f.hash ≠ some o'.hash)
    (ho : o ∈ db₀.open_orders)
    (hInv : ReconInv db₀ s) : ReconInv db₀ (reconcile_order s now o seqs idx) := by
  unfold reconcile_order
  by_cases hmem : o.sequence ∈ seqs
  · rw [if_pos hmem]
    obtain ⟨hc, new, hf, hnew⟩ := hInv
    exact ⟨hc, new, hf, hnew⟩
  · rw [if_neg hmem]
    unfold handle_filled_order
    have hstore : ReconInv db₀ (s.store_filled_order
        { hash := some o.hash
          account := some o.account
          sequence := some o.sequence
          created_ledger_index := some o.created_ledger_index
          resolved_ledger_index := o.last_checked_ledger
          taker_gets := some o.taker_gets
          taker_pays := some o.taker_pays
          filled_gets := some o.taker_gets
          filled_pays := some o.taker_pays
          status := some .filled
          user_id := some o.user_id
          transaction_type :=
            some (if o.transaction_type = "" then "OfferCreate" else o.transaction_type)
          created_date := some o.created_date
          resolution_date := some now
          resolution_method := some "inferred" }) :=
      ReconInv.store_filled db₀ s _ hdisj ⟨o, ho, rfl⟩ hInv
    obtain ⟨hc, new, hf, hnew⟩ := hstore
    exact ⟨hc, new, hf, hnew⟩

theorem ReconInv.fold_orders (db₀ : DBState) (now : ℤ)
    (seqs : List ℕ) (idx : Option ℕ)
    (hdisj : ∀ o' ∈ db₀.open_orders, ∀ f ∈ db₀.filled_orders, f.hash ≠ some o'.hash)
    (os : List StoredOpenOrder) (hos : ∀ o ∈ os, o ∈ db₀.open_orders)
    (s : DBState) (hInv : ReconInv db₀ s) :
    ReconInv db₀ (os.foldl (fun s2 o => reconcile_order s2 now o seqs idx) s) := by
  induction os generalizing s with
  | nil => exact hInv
  | cons o os ih =>
    refine ih (fun o' ho' => hos o' (List.mem_cons_of_mem _ ho')) _ ?_
    exact ReconInv.reconcile db₀ s now o seqs idx hdisj (hos o (List.mem_cons_self _ _)) hInv

/-- A stored open order whose hash already names a filled record: the state
`_process_open_offer` recreates when the polling loop replays the stored
`OfferCreate` (the ledger cursor is inclusive) after the reconciler already
inferred a fill for it. -/
def c4Open : StoredOpenOrder where
  hash := "H4"
  account := "A"
  sequence := 100
  created_ledger_index := 5
  last_checked_ledger := some 7
  taker_gets := ⟨"XRP", none, 1000⟩
  taker_pays := ⟨"USD", some "I", 500⟩
  status := .open
  user_id := "u"
  created_date := 0
  fee_xrp := 1 / 100000

/-- The filled record the earlier inferred fill left behind for the same
hash `"H4"`, resolved at wall-clock time 1. -/
def c4Prior : FilledRecord where
  hash := some "H4"
  account := some "A"
  sequence := some 100
  created_ledger_index := some 5
  resolved_ledger_index := some 7
  taker_gets := some ⟨"XRP", none, 1000⟩
  taker_pays := some ⟨"USD", some "I", 500⟩
  filled_gets := some ⟨"XRP", none, 1000⟩
  filled_pays := some ⟨"USD", some "I", 500⟩
  status := some .filled
  user_id := some "u"
  transaction_type := some "OfferCreate"
  created_date := some 0
  resolution_date := some 1
  resolution_method := some "inferred"

/-- The colliding state: the open store and the filled store both hold hash
`"H4"`. -/
def c4Db : DBState := ⟨[c4Open], [c4Prior], []⟩

/-- Claim C4 counterexample: from the reachable colliding state `c4Db`, a
reconciliation cycle (the account query succeeds and sequence 100 is again
absent) does not append to the filled store — it keeps a single record and
`$set`-overwrites the existing terminal one in place, changing its
`resolution_date` from 1 to the new wall-clock time 2.  The reconciler
therefore does mutate a FILLED record, contradicting the claim's
"never touches the filled or canceled stores except to append". -/
theorem reconciler_overwrites_terminal_counterexample :
    c4Db.open_orders.map (·.hash) = ["H4"] ∧
    c4Db.filled_orders.map (fun f => (f.hash, f.status, f.resolution_date)) =
      [(some "H4", some OrderStatus.filled, some 1)] ∧
    (check_open_orders c4Db 2 fun _ => some ([], some 9)).filled_orders.map
        (fun f => (f.hash, f.status, f.resolution_date)) =
      [(some "H4", some OrderStatus.filled, some 2)] ∧
    (check_open_orders c4Db 2 fun _ => some ([], some 9)).filled_orders.length =
      c4Db.filled_orders.length := by
  refine ⟨rfl, rfl, rfl, rfl⟩

/-- Claim C4, amended: for a reconciliation cycle starting from a state in
which no open offer shares its hash with an existing filled record, the
reconciler never touches the canceled store, only appends to the filled
store (each appended record's hash is one of the loaded open offers'), and
hence never transitions an offer already in a terminal store.  The
disjointness precondition is necessary: the unique hash indexes are
per-collection, and the inclusive ledger replay can recreate an open order
whose hash already names a filled record, in which case the next cycle
overwrites that terminal record in place (the counterexample above). -/
theorem reconciler_terminal_safety (db : DBState) (now : ℤ)
    (offersOf : String → Option (List ℕ × Option ℕ))
    (hdisj : ∀ o ∈ db.open_orders, ∀ f ∈ db.filled_orders, f.hash ≠ some o.hash) :
    (check_open_orders db now offersOf).canceled_orders = db.canceled_orders ∧
    ∃ new, (check_open_orders db now offersOf).filled_orders = db.filled_orders ++ new ∧
      ∀ r ∈ new, ∃ o ∈ db.open_orders, r.hash = some o.hash := by
  have step : ∀ (accs : List String) (s : DBState), ReconInv db s →
      ReconInv db (accs.foldl
        (fun s2 a =>
          match offersOf a with
          | none => s2
          | some (seqs, idx) =>
            (db.open_orders.filter fun o => o.account = a).foldl
              (fun s3 o => reconcile_order s3 now o seqs idx) s2)
        s) := by
    intro accs
    induction accs with
    | nil => intro s hs; exact hs
    | cons a rest ih =>
      intro s hs
      rw [List.foldl_cons]
      refine ih _ ?_
      cases hoff : offersOf a with
      | none => simpa [hoff] using hs
      | some p =>
        obtain ⟨seqs, idx⟩ := p
        simp only [hoff]
        refine ReconInv.fold_orders db now seqs idx hdisj _ ?_ s hs
        intro o ho
        exact (List.mem_filter.mp ho).1
  have hdef : check_open_orders db now offersOf =
      (((db.open_orders.filter fun o => o.account ≠ "").map (·.account)).dedup).foldl
        (fun s2 a =>
          match offersOf a with
          | none => s2
          | some (seqs, idx) =>
            (db.open_orders.filter fun o => o.account = a).foldl
              (fun s3 o => reconcile_order s3 now o seqs idx) s2)
        db := rfl
  have main := step (((db.open_orders.filter fun o => o.account ≠ "").map (·.account)).dedup)
    db (ReconInv.refl db)
  rw [hdef]
  exact ⟨main.1, main.2⟩

/-- Witness for the amended claim C4 on a one-offer store with every
`account_offers` request failing. -/
theorem reconciler_terminal_safety_witness :
    (check_open_orders ⟨[c3Open], [], []⟩ 0 fun _ => none).canceled_orders =
      (⟨[c3Open], [], []⟩ : DBState).canceled_orders ∧
    ∃ new, (check_open_orders ⟨[c3Open], [], []⟩ 0 fun _ => none).filled_orders =
      (⟨[c3Open], [], []⟩ : DBState).filled_orders ++ new ∧
      ∀ r ∈ new, ∃ o ∈ (⟨[c3Open], [], []⟩ : DBState).open_orders, r.hash = some o.hash :=
  reconciler_terminal_safety ⟨[c3Open], [], []⟩ 0 (fun _ => none) (by simp)

end XRPLTag
